import Mathlib

/-!
Shallow embedding of the `relay_coordination` repository core
(`core/curves.py`, `core/ct.py`, `core/relay.py`, `core/cb.py`,
`analysis/coordination.py`) and proofs about it.

Python floats are idealised as real numbers; the values `float('inf')`,
`float('-inf')` and `float('nan')` that the code can produce are modelled
explicitly by the `TimeVal` and `MarginVal` types.  A Python function that
can raise an exception is modelled in the `Except String` monad; a function
that can return `None` returns an `Option`.
-/

namespace RelayCoordination

/-! ## curves.py -/

/-- Coefficients of an IEC-formula curve entry (`k`, `alpha`). -/
structure IECCurveParams where
  k : ℝ
  alpha : ℝ

/-- Coefficients of an IEEE/ANSI-formula curve entry (`A`, `B`, `p`). -/
structure IEEECurveParams where
  A : ℝ
  B : ℝ
  p : ℝ

/-- A value of the curve-parameter dictionaries: either an IEC-style or an
IEEE/ANSI-style coefficient record. -/
inductive CurveParams where
  | iec (q : IECCurveParams)
  | ieee (q : IEEECurveParams)

/-- Source `IEC_CURVES` from curves.py. -/
def IEC_CURVES : List (String × IECCurveParams) :=
  [("IEC_NI", ⟨0.14, 0.02⟩),
   ("IEC_VI", ⟨13.5, 1.0⟩),
   ("IEC_EI", ⟨80.0, 2.0⟩),
   ("IEC_LTI", ⟨120.0, 1.0⟩),
   ("IEC_STI", ⟨0.05, 0.04⟩)]

/-- Source `IEEE_CURVES` from curves.py. -/
def IEEE_CURVES : List (String × IEEECurveParams) :=
  [("IEEE_MI", ⟨0.0515, 0.02, 0.114⟩),
   ("IEEE_VI", ⟨19.61, 0.491, 2.0⟩),
   ("IEEE_EI", ⟨28.2, 0.1217, 2.0⟩)]

/-- Source `ANSI_CURVES` from curves.py. -/
def ANSI_CURVES : List (String × IEEECurveParams) :=
  [("ANSI_ST", ⟨0.02394, 0.01694, 0.02⟩),
   ("ANSI_LT", ⟨5.95, 0.18, 2.0⟩),
   ("ANSI_DEF", ⟨0.2663, 0.0, 0.0⟩)]

/-- Source `IEC_61363_CURVES` from curves.py. -/
def IEC_61363_CURVES : List (String × IECCurveParams) :=
  [("IEC_61363_A", ⟨0.0515, 0.02⟩),
   ("IEC_61363_B", ⟨13.5, 1.0⟩),
   ("IEC_61363_C", ⟨80.0, 2.0⟩),
   ("IEC_61363_LT", ⟨120.0, 1.0⟩)]

/-- Source `ALL_CURVES` from curves.py: the four dictionaries merged (their key sets
are pairwise disjoint, so dict update is list concatenation). -/
def ALL_CURVES : List (String × CurveParams) :=
  IEC_CURVES.map (fun x => (x.1, CurveParams.iec x.2))
    ++ IEEE_CURVES.map (fun x => (x.1, CurveParams.ieee x.2))
    ++ ANSI_CURVES.map (fun x => (x.1, CurveParams.ieee x.2))
    ++ IEC_61363_CURVES.map (fun x => (x.1, CurveParams.iec x.2))

/-- Source `ALL_CURVES.keys()`. -/
def curveKeys : List String := ALL_CURVES.map Prod.fst

/-- Source `sorted(ALL_CURVES.keys())`: the registered identifiers in ascending
lexicographic order. -/
def sortedCurveKeys : List String :=
  curveKeys.mergeSort (fun a b => !(decide (b < a)))

/-- The string `', '.join(sorted(ALL_CURVES.keys()))` used in the error. -/
def availableCurvesStr : String := String.intercalate ", " sortedCurveKeys

/-- The message of the `ValueError` raised by `get_curve_params`. -/
def unknownCurveMessage (curve_type : String) : String :=
  "Unknown curve type: " ++ curve_type ++ "\nAvailable curves: " ++ availableCurvesStr

/-- Source `get_curve_params` from curves.py: dictionary lookup, raising `ValueError`
with the enumerating message when the identifier is absent. -/
def get_curve_params (curve_type : String) : Except String CurveParams :=
  match ALL_CURVES.lookup curve_type with
  | some ps => .ok ps
  | none => .error (unknownCurveMessage curve_type)

/-- Source `is_iec_curve` from curves.py. -/
def is_iec_curve (curve_type : String) : Bool :=
  (IEC_CURVES.lookup curve_type).isSome || (IEC_61363_CURVES.lookup curve_type).isSome

/-- Source `is_ieee_curve` from curves.py. -/
def is_ieee_curve (curve_type : String) : Bool :=
  (IEEE_CURVES.lookup curve_type).isSome || (ANSI_CURVES.lookup curve_type).isSome

/-! ## Float values produced by the trip-time computation

`_calculate_curve_time` returns either a finite float or `float('inf')`
(the `M <= 1.0` branch); no other float values can arise as trip times. -/

/-- A trip-time value: a finite float or `float('inf')`. -/
inductive TimeVal where
  | real (t : ℝ)
  | inf

/-- Python `<` on two trip-time floats. -/
noncomputable def TimeVal.ltBool : TimeVal → TimeVal → Bool
  | .real a, .real b => decide (a < b)
  | .real _, .inf => true
  | .inf, _ => false

/-- Python `==` on two trip-time floats. -/
noncomputable def TimeVal.beq : TimeVal → TimeVal → Bool
  | .real a, .real b => decide (a = b)
  | .inf, .inf => true
  | _, _ => false

/-- Python `t + x` for a trip-time float `t` and a finite float `x`
(`inf + x == inf`). -/
noncomputable def TimeVal.addReal : TimeVal → ℝ → TimeVal
  | .real a, x => .real (a + x)
  | .inf, _ => .inf

/-- A selectivity margin: the difference of two trip-time floats, which can
be finite, `inf`, `-inf` or `nan`. -/
inductive MarginVal where
  | real (m : ℝ)
  | inf
  | neginf
  | nan

/-- Python `a - b` on two trip-time floats (IEEE: `inf - inf == nan`). -/
noncomputable def TimeVal.sub : TimeVal → TimeVal → MarginVal
  | .real a, .real b => .real (a - b)
  | .inf, .real _ => .inf
  | .real _, .inf => .neginf
  | .inf, .inf => .nan

/-- Python `margin >= x` for a margin float and a finite float `x`
(IEEE: every comparison with `nan` is false). -/
noncomputable def MarginVal.geBool : MarginVal → ℝ → Bool
  | .real a, x => decide (x ≤ a)
  | .inf, _ => true
  | .neginf, _ => false
  | .nan, _ => false

/-! ## ct.py -/

/-- Current transformer: the fields of `CT` used by the core computations.
`ratio` and `alf` are set by `__init__` / `_parse_iec_class`. -/
structure CT where
  primary_rating : ℝ
  secondary_rating : ℝ
  ratio : ℝ
  alf : ℝ

/-- Source `CT.__init__`: stores the ratings and computes `ratio = primary / secondary`;
`alf` is the parsed accuracy-limit factor. -/
noncomputable def mkCT (primary_rating secondary_rating alf : ℝ) : CT :=
  { primary_rating := primary_rating
    secondary_rating := secondary_rating
    ratio := primary_rating / secondary_rating
    alf := alf }

/-- Source `CT.secondary_current`: the unclamped linear value `primary / ratio`,
paired with the saturation-warning flag (`i_secondary > secondary_rating * alf`).
The warning is non-fatal: the first component is returned in every case. -/
noncomputable def CT.secondary_current (ct : CT) (primary : ℝ) : ℝ × Bool :=
  let i_secondary := primary / ct.ratio
  let i_limit := ct.secondary_rating * ct.alf
  (i_secondary, decide (i_limit < i_secondary))

/-- Source `CT.primary_current`: the exact inverse `secondary * ratio`. -/
noncomputable def CT.primary_current (ct : CT) (secondary : ℝ) : ℝ :=
  secondary * ct.ratio

/-! ## relay.py -/

/-- Protection relay: the settings stored by `Relay.__init__`.  Instantaneous
delays are already converted from milliseconds to seconds (as `__init__` does);
a pickup of `none` models Python `None` (element disabled regardless of flag). -/
structure Relay where
  name : String
  ct : CT
  phase_pickup : Option ℝ
  phase_curve : String
  phase_tms : ℝ
  phase_enabled : Bool
  phase_inst_pickup : Option ℝ
  phase_inst_delay : ℝ
  phase_inst_enabled : Bool
  ground_pickup : Option ℝ
  ground_curve : String
  ground_tms : ℝ
  ground_enabled : Bool
  ground_inst_pickup : Option ℝ
  ground_inst_delay : ℝ
  ground_inst_enabled : Bool

/-- Source `Relay.__init__`: stores every setting unvalidated (the curve identifier in
particular is not checked against the registry) and converts the instantaneous
delays from milliseconds to seconds.  Construction is total: it never fails. -/
noncomputable def mkRelay (name : String) (ct : CT)
    (phase_pickup : Option ℝ) (phase_curve : String) (phase_tms : ℝ) (phase_enabled : Bool)
    (phase_inst_pickup : Option ℝ) (phase_inst_delay_ms : ℝ) (phase_inst_enabled : Bool)
    (ground_pickup : Option ℝ) (ground_curve : String) (ground_tms : ℝ) (ground_enabled : Bool)
    (ground_inst_pickup : Option ℝ) (ground_inst_delay_ms : ℝ) (ground_inst_enabled : Bool) :
    Relay :=
  { name := name
    ct := ct
    phase_pickup := phase_pickup
    phase_curve := phase_curve
    phase_tms := phase_tms
    phase_enabled := phase_enabled
    phase_inst_pickup := phase_inst_pickup
    phase_inst_delay := phase_inst_delay_ms / 1000
    phase_inst_enabled := phase_inst_enabled
    ground_pickup := ground_pickup
    ground_curve := ground_curve
    ground_tms := ground_tms
    ground_enabled := ground_enabled
    ground_inst_pickup := ground_inst_pickup
    ground_inst_delay := ground_inst_delay_ms / 1000
    ground_inst_enabled := ground_inst_enabled }

/-- Source `Relay._calculate_curve_time`: compute `M = current / pickup`; if
`M <= 1.0` return `float('inf')` ("below pickup, never trips"); otherwise look
the curve up (raising `ValueError` for an unknown identifier) and apply the
IEC formula `tms * k / (M^alpha - 1)` or the IEEE/ANSI formula
`tms * (A / (M^p - B))`.  The two `KeyError` branches are unreachable for the
registered dictionaries but mirror the untyped field accesses of the source. -/
noncomputable def calculate_curve_time (current pickup : ℝ) (curve_type : String)
    (tms : ℝ) : Except String TimeVal :=
  let M := current / pickup
  if M ≤ 1 then .ok .inf
  else
    match get_curve_params curve_type with
    | .error e => .error e
    | .ok params =>
      if is_iec_curve curve_type then
        match params with
        | .iec q => .ok (.real (tms * q.k / (M ^ q.alpha - 1)))
        | .ieee _ => .error "KeyError"
      else if is_ieee_curve curve_type then
        match params with
        | .ieee q => .ok (.real (tms * (q.A / (M ^ q.p - q.B))))
        | .iec _ => .error "KeyError"
      else
        .error ("Unknown curve type: " ++ curve_type)

/-- The phase time-overcurrent (51) check of `calculate_trip_time`: if the
element is enabled with a set pickup and `i_primary >= pickup`, compute the
curve time; otherwise fall through to `return None`. -/
noncomputable def phaseTimeElement (r : Relay) (i_primary : ℝ) :
    Except String (Option TimeVal) :=
  match (if r.phase_enabled then r.phase_pickup else none) with
  | some pu =>
    if pu ≤ i_primary then
      (calculate_curve_time i_primary pu r.phase_curve r.phase_tms).map some
    else .ok none
  | none => .ok none

/-- The ground time-overcurrent (51N) check of `calculate_trip_time`. -/
noncomputable def groundTimeElement (r : Relay) (i_primary : ℝ) :
    Except String (Option TimeVal) :=
  match (if r.ground_enabled then r.ground_pickup else none) with
  | some pu =>
    if pu ≤ i_primary then
      (calculate_curve_time i_primary pu r.ground_curve r.ground_tms).map some
    else .ok none
  | none => .ok none

/-- Source `Relay.calculate_trip_time`: converts the fault current to a secondary
value (used for nothing but the saturation diagnostic), then checks the
instantaneous element first and the time-overcurrent element second for the
given fault type; any other fault type falls through to `return None`. -/
noncomputable def calculate_trip_time (r : Relay) (fault_current : ℝ)
    (fault_type : String) : Except String (Option TimeVal) :=
  let _i_secondary := (CT.secondary_current r.ct fault_current).1
  let i_primary := fault_current
  if fault_type = "phase" then
    match (if r.phase_inst_enabled then r.phase_inst_pickup else none) with
    | some ip =>
      if ip ≤ i_primary then .ok (some (.real r.phase_inst_delay))
      else phaseTimeElement r i_primary
    | none => phaseTimeElement r i_primary
  else if fault_type = "ground" then
    match (if r.ground_inst_enabled then r.ground_inst_pickup else none) with
    | some ip =>
      if ip ≤ i_primary then .ok (some (.real r.ground_inst_delay))
      else groundTimeElement r i_primary
    | none => groundTimeElement r i_primary
  else
    .ok none

/-! ## cb.py -/

/-- Circuit breaker: the fields of `CircuitBreaker` used by the core. -/
structure CircuitBreaker where
  relay : Option Relay
  interrupting_rating_ka_sym : ℝ
  operating_time : ℝ
  state : String

/-- Source `CircuitBreaker.__init__`: an explicit millisecond operating time, when
given, is converted to seconds and overrides the cycle count; otherwise the
cycle count is converted at the fixed 60 Hz line frequency.  The device starts
closed. -/
noncomputable def mkCircuitBreaker (relay : Option Relay)
    (interrupting_rating_ka_sym : ℝ) (operating_time_cycles : ℝ)
    (operating_time_ms : Option ℝ) : CircuitBreaker :=
  { relay := relay
    interrupting_rating_ka_sym := interrupting_rating_ka_sym
    operating_time :=
      match operating_time_ms with
      | some ms => ms / 1000
      | none => operating_time_cycles / 60
    state := "closed" }

/-- Source `CircuitBreaker.total_clearing_time`: `None` without a relay or when the
relay does not trip, else the relay trip time plus the operating time. -/
noncomputable def CircuitBreaker.total_clearing_time (cb : CircuitBreaker)
    (fault_current : ℝ) (fault_type : String) : Except String (Option TimeVal) :=
  match cb.relay with
  | none => .ok none
  | some r =>
    match calculate_trip_time r fault_current fault_type with
    | .error e => .error e
    | .ok none => .ok none
    | .ok (some t) => .ok (some (t.addReal cb.operating_time))

/-- Source `CircuitBreaker.trip`: set the state to open. -/
def CircuitBreaker.trip (cb : CircuitBreaker) : CircuitBreaker :=
  { cb with state := "open" }

/-- Source `CircuitBreaker.close`: set the state to closed. -/
def CircuitBreaker.close (cb : CircuitBreaker) : CircuitBreaker :=
  { cb with state := "closed" }

/-! ## coordination.py, `check_selectivity` -/

/-- One row of the `check_selectivity` result list. -/
structure SelectivityResult where
  relay : String
  trip_time : TimeVal
  margin : Option MarginVal
  selective : Bool

/-- The `(relay.name, trip_time)` projection of a result row. -/
def resultEntry (x : SelectivityResult) : String × TimeVal := (x.relay, x.trip_time)

/-- The `trip_times` accumulation loop of `check_selectivity`: evaluate every
relay, keep `(relay.name, trip_time)` for those that trip, propagate an
exception raised by any evaluation. -/
noncomputable def collectTripTimes : List Relay → ℝ → String →
    Except String (List (String × TimeVal))
  | [], _, _ => .ok []
  | r :: rs, fault_current, fault_type =>
    match calculate_trip_time r fault_current fault_type with
    | .error e => .error e
    | .ok none => collectTripTimes rs fault_current fault_type
    | .ok (some t) =>
      (collectTripTimes rs fault_current fault_type).map (fun l => (r.name, t) :: l)

/-- The comparison of `trip_times.sort(key=lambda x: x[1])`: Python's stable
sort takes the earlier element whenever it is not strictly greater. -/
noncomputable def selLe (x y : String × TimeVal) : Bool :=
  !(TimeVal.ltBool y.2 x.2)

/-- The `i >= 1` part of the result loop of `check_selectivity`: each row's
margin is its trip time minus the previous trip time, and the row is
selective when `margin >= min_margin`. -/
noncomputable def selRest (min_margin : ℝ) : TimeVal → List (String × TimeVal) →
    List SelectivityResult
  | _, [] => []
  | prev, (nm, t) :: rest =>
    { relay := nm, trip_time := t, margin := some (t.sub prev),
      selective := (t.sub prev).geBool min_margin } :: selRest min_margin t rest

/-- The result loop of `check_selectivity`: the first (fastest) row is the
primary with no margin and `selective = True`; later rows via `selRest`. -/
noncomputable def buildSelResults (min_margin : ℝ) : List (String × TimeVal) →
    List SelectivityResult
  | [] => []
  | (nm, t) :: rest =>
    { relay := nm, trip_time := t, margin := none, selective := true }
      :: selRest min_margin t rest

/-- The default of the `min_margin` parameter of `check_selectivity`. -/
noncomputable def check_selectivity_default_margin : ℝ := 0.3

/-- Source `check_selectivity` from coordination.py: evaluate every relay, keep the
ones that trip, sort them by ascending trip time (stable, so ties keep the
original relay order) and build the per-relay result rows. -/
noncomputable def check_selectivity (relays : List Relay) (fault_current : ℝ)
    (fault_type : String) (min_margin : ℝ) : Except String (List SelectivityResult) :=
  (collectTripTimes relays fault_current fault_type).map (fun trip_times =>
    buildSelResults min_margin (trip_times.mergeSort selLe))

/-- The entry contributed by one relay to `trip_times`: present exactly when
the relay trips. -/
noncomputable def tripEntry (fault_current : ℝ) (fault_type : String) (r : Relay) :
    Option (String × TimeVal) :=
  match calculate_trip_time r fault_current fault_type with
  | .ok (some t) => some (r.name, t)
  | _ => none

/-! ## Concrete fixtures used by witnesses -/

/-- A 200/5 CT with accuracy-limit factor 20 (class "5P20"). -/
noncomputable def defaultCT : CT := mkCT 200 5 20

/-- A relay whose phase time-overcurrent element is armed with pickup 100 A
(curve IEC_NI, TMS 0.4) and whose other elements are off. -/
noncomputable def boundaryRelay : Relay :=
  mkRelay "R1" defaultCT (some 100) "IEC_NI" 0.4 true none 50 false
    none "IEC_NI" 0.4 false none 50 false

/-- A relay with phase instantaneous pickup 900 A / 50 ms delay and a phase
time element with the lower pickup 150 A (curve IEC_NI, TMS 0.3). -/
noncomputable def instRelay : Relay :=
  mkRelay "R2" defaultCT (some 150) "IEC_NI" 0.3 true (some 900) 50 true
    none "IEC_NI" 0.4 false none 50 false

/-- A breaker attached to `instRelay`, operating time 3 cycles (no explicit
millisecond value). -/
noncomputable def instBreaker : CircuitBreaker :=
  mkCircuitBreaker (some instRelay) 25 3 none

/-- A relay configured with the unregistered curve identifier "BOGUS" on its
armed phase time element (pickup 100 A); instantaneous elements off. -/
noncomputable def bogusCurveRelay : Relay :=
  mkRelay "R3" defaultCT (some 100) "BOGUS" 0.4 true none 50 false
    none "BOGUS" 0.4 false none 50 false

/-- Relay "A": phase instantaneous pickup 100 A, delay 500 ms; all other
elements off. -/
noncomputable def selRelayA : Relay :=
  mkRelay "A" defaultCT none "IEC_NI" 0.4 false (some 100) 500 true
    none "IEC_NI" 0.4 false none 50 false

/-- Relay "B": phase instantaneous pickup 100 A, delay 900 ms; all other
elements off. -/
noncomputable def selRelayB : Relay :=
  mkRelay "B" defaultCT none "IEC_NI" 0.4 false (some 100) 900 true
    none "IEC_NI" 0.4 false none 50 false

end RelayCoordination

namespace RelayCoordination

/-! ## Helper lemmas -/

/-- The registered identifiers, as a literal list. -/
theorem curveKeys_eq :
    curveKeys = ["IEC_NI", "IEC_VI", "IEC_EI", "IEC_LTI", "IEC_STI",
      "IEEE_MI", "IEEE_VI", "IEEE_EI", "ANSI_ST", "ANSI_LT", "ANSI_DEF",
      "IEC_61363_A", "IEC_61363_B", "IEC_61363_C", "IEC_61363_LT"] := rfl

/-- Evaluating `calculate_curve_time` above pickup on an IEC-family curve. -/
theorem calcCurveTime_iec (c : String) (k alpha : ℝ)
    (hget : get_curve_params c = .ok (.iec ⟨k, alpha⟩)) (hflag : is_iec_curve c = true)
    (current pickup tms : ℝ) (hM : 1 < current / pickup) :
    calculate_curve_time current pickup c tms =
      .ok (.real (tms * k / ((current / pickup) ^ alpha - 1))) := by
  simp only [calculate_curve_time]
  rw [if_neg (not_le.mpr hM), hget]
  simp [hflag]

/-- Evaluating `calculate_curve_time` above pickup on an IEEE/ANSI-family
curve. -/
theorem calcCurveTime_ieee (c : String) (A B p : ℝ)
    (hget : get_curve_params c = .ok (.ieee ⟨A, B, p⟩))
    (hflag1 : is_iec_curve c = false) (hflag2 : is_ieee_curve c = true)
    (current pickup tms : ℝ) (hM : 1 < current / pickup) :
    calculate_curve_time current pickup c tms =
      .ok (.real (tms * (A / ((current / pickup) ^ p - B)))) := by
  simp only [calculate_curve_time]
  rw [if_neg (not_le.mpr hM), hget]
  simp [hflag1, hflag2]

/-- The IEC formula `tms * k / (M^alpha - 1)` is strictly decreasing in `M`
above 1, for positive coefficients. -/
theorem iec_strict_anti (k alpha tms : ℝ) (hk : 0 < k) (ha : 0 < alpha)
    (htms : 0 < tms) (M1 M2 : ℝ) (hM1 : 1 < M1) (h12 : M1 < M2) :
    tms * k / (M2 ^ alpha - 1) < tms * k / (M1 ^ alpha - 1) := by
  have h0 : (0 : ℝ) ≤ M1 := by linarith
  have e1 : 1 < M1 ^ alpha :=
    (Real.one_lt_rpow_iff_of_pos (by linarith)).mpr (Or.inl ⟨hM1, ha⟩)
  have e2 : M1 ^ alpha < M2 ^ alpha := Real.rpow_lt_rpow h0 h12 ha
  have d1 : 0 < M1 ^ alpha - 1 := by linarith
  have d2 : 0 < M2 ^ alpha - 1 := by linarith
  exact (div_lt_div_iff_of_pos_left (mul_pos htms hk) d2 d1).mpr (by linarith)

/-- The IEEE/ANSI formula `tms * (A / (M^p - B))` is strictly decreasing in
`M` above 1, for `A > 0`, `p > 0` and `B ≤ 1`. -/
theorem ieee_strict_anti (A B p tms : ℝ) (hA : 0 < A) (hp : 0 < p) (hB : B ≤ 1)
    (htms : 0 < tms) (M1 M2 : ℝ) (hM1 : 1 < M1) (h12 : M1 < M2) :
    tms * (A / (M2 ^ p - B)) < tms * (A / (M1 ^ p - B)) := by
  have h0 : (0 : ℝ) ≤ M1 := by linarith
  have e1 : 1 < M1 ^ p :=
    (Real.one_lt_rpow_iff_of_pos (by linarith)).mpr (Or.inl ⟨hM1, hp⟩)
  have e2 : M1 ^ p < M2 ^ p := Real.rpow_lt_rpow h0 h12 hp
  have d1 : 0 < M1 ^ p - B := by linarith
  have d2 : 0 < M2 ^ p - B := by linarith
  exact mul_lt_mul_of_pos_left
    ((div_lt_div_iff_of_pos_left hA d2 d1).mpr (by linarith)) htms

/-! ## Claim theorems -/

/-- C1: at a fault current exactly equal to an armed time element's pickup
(`M = 1 <= 1.0`), `calculate_trip_time` does NOT return the absent value
`None`: it returns the float `inf` produced by `_calculate_curve_time`, a
present value distinct from the no-trip result.  This refutes the claim that
the boundary yields "no trip" and exhibits the code bug. -/
theorem trip_time_at_exact_pickup :
    calculate_trip_time boundaryRelay 100 "phase" = .ok (some TimeVal.inf) ∧
    (Except.ok (some TimeVal.inf) : Except String (Option TimeVal)) ≠ .ok none := by
  constructor
  · norm_num [calculate_trip_time, boundaryRelay, mkRelay, phaseTimeElement,
      calculate_curve_time, Except.map]
  · simp

/-- C2 (amended): for every registered curve identifier EXCEPT the
definite-time curve `ANSI_DEF` (whose exponent `p = 0` makes the trip time
constant in the current), with TMS > 0 and pickup P > 0, the computed trip
time is strictly decreasing in the fault current above pickup. -/
theorem curve_time_strictly_decreasing (c : String) (hc : c ∈ curveKeys)
    (hdef : c ≠ "ANSI_DEF") (tms P I1 I2 : ℝ) (htms : 0 < tms) (hP : 0 < P)
    (h1 : P < I1) (h2 : I1 < I2) :
    ∃ t1 t2 : ℝ, calculate_curve_time I1 P c tms = .ok (.real t1) ∧
      calculate_curve_time I2 P c tms = .ok (.real t2) ∧ t2 < t1 := by
  have hM1 : 1 < I1 / P := (one_lt_div hP).mpr h1
  have hM2 : 1 < I2 / P := (one_lt_div hP).mpr (h1.trans h2)
  have hMM : I1 / P < I2 / P := by gcongr
  rw [curveKeys_eq] at hc
  simp only [List.mem_cons, List.not_mem_nil, or_false] at hc
  rcases hc with rfl | rfl | rfl | rfl | rfl | rfl | rfl | rfl | rfl | rfl | rfl
    | rfl | rfl | rfl | rfl
  · exact ⟨_, _, calcCurveTime_iec "IEC_NI" 0.14 0.02 rfl rfl _ _ _ hM1,
      calcCurveTime_iec "IEC_NI" 0.14 0.02 rfl rfl _ _ _ hM2,
      iec_strict_anti 0.14 0.02 tms (by norm_num) (by norm_num) htms _ _ hM1 hMM⟩
  · exact ⟨_, _, calcCurveTime_iec "IEC_VI" 13.5 1.0 rfl rfl _ _ _ hM1,
      calcCurveTime_iec "IEC_VI" 13.5 1.0 rfl rfl _ _ _ hM2,
      iec_strict_anti 13.5 1.0 tms (by norm_num) (by norm_num) htms _ _ hM1 hMM⟩
  · exact ⟨_, _, calcCurveTime_iec "IEC_EI" 80.0 2.0 rfl rfl _ _ _ hM1,
      calcCurveTime_iec "IEC_EI" 80.0 2.0 rfl rfl _ _ _ hM2,
      iec_strict_anti 80.0 2.0 tms (by norm_num) (by norm_num) htms _ _ hM1 hMM⟩
  · exact ⟨_, _, calcCurveTime_iec "IEC_LTI" 120.0 1.0 rfl rfl _ _ _ hM1,
      calcCurveTime_iec "IEC_LTI" 120.0 1.0 rfl rfl _ _ _ hM2,
      iec_strict_anti 120.0 1.0 tms (by norm_num) (by norm_num) htms _ _ hM1 hMM⟩
  · exact ⟨_, _, calcCurveTime_iec "IEC_STI" 0.05 0.04 rfl rfl _ _ _ hM1,
      calcCurveTime_iec "IEC_STI" 0.05 0.04 rfl rfl _ _ _ hM2,
      iec_strict_anti 0.05 0.04 tms (by norm_num) (by norm_num) htms _ _ hM1 hMM⟩
  · exact ⟨_, _, calcCurveTime_ieee "IEEE_MI" 0.0515 0.02 0.114 rfl rfl rfl _ _ _ hM1,
      calcCurveTime_ieee "IEEE_MI" 0.0515 0.02 0.114 rfl rfl rfl _ _ _ hM2,
      ieee_strict_anti 0.0515 0.02 0.114 tms (by norm_num) (by norm_num)
        (by norm_num) htms _ _ hM1 hMM⟩
  · exact ⟨_, _, calcCurveTime_ieee "IEEE_VI" 19.61 0.491 2.0 rfl rfl rfl _ _ _ hM1,
      calcCurveTime_ieee "IEEE_VI" 19.61 0.491 2.0 rfl rfl rfl _ _ _ hM2,
      ieee_strict_anti 19.61 0.491 2.0 tms (by norm_num) (by norm_num)
        (by norm_num) htms _ _ hM1 hMM⟩
  · exact ⟨_, _, calcCurveTime_ieee "IEEE_EI" 28.2 0.1217 2.0 rfl rfl rfl _ _ _ hM1,
      calcCurveTime_ieee "IEEE_EI" 28.2 0.1217 2.0 rfl rfl rfl _ _ _ hM2,
      ieee_strict_anti 28.2 0.1217 2.0 tms (by norm_num) (by norm_num)
        (by norm_num) htms _ _ hM1 hMM⟩
  · exact ⟨_, _, calcCurveTime_ieee "ANSI_ST" 0.02394 0.01694 0.02 rfl rfl rfl _ _ _ hM1,
      calcCurveTime_ieee "ANSI_ST" 0.02394 0.01694 0.02 rfl rfl rfl _ _ _ hM2,
      ieee_strict_anti 0.02394 0.01694 0.02 tms (by norm_num) (by norm_num)
        (by norm_num) htms _ _ hM1 hMM⟩
  · exact ⟨_, _, calcCurveTime_ieee "ANSI_LT" 5.95 0.18 2.0 rfl rfl rfl _ _ _ hM1,
      calcCurveTime_ieee "ANSI_LT" 5.95 0.18 2.0 rfl rfl rfl _ _ _ hM2,
      ieee_strict_anti 5.95 0.18 2.0 tms (by norm_num) (by norm_num)
        (by norm_num) htms _ _ hM1 hMM⟩
  · exact absurd rfl hdef
  · exact ⟨_, _, calcCurveTime_iec "IEC_61363_A" 0.0515 0.02 rfl rfl _ _ _ hM1,
      calcCurveTime_iec "IEC_61363_A" 0.0515 0.02 rfl rfl _ _ _ hM2,
      iec_strict_anti 0.0515 0.02 tms (by norm_num) (by norm_num) htms _ _ hM1 hMM⟩
  · exact ⟨_, _, calcCurveTime_iec "IEC_61363_B" 13.5 1.0 rfl rfl _ _ _ hM1,
      calcCurveTime_iec "IEC_61363_B" 13.5 1.0 rfl rfl _ _ _ hM2,
      iec_strict_anti 13.5 1.0 tms (by norm_num) (by norm_num) htms _ _ hM1 hMM⟩
  · exact ⟨_, _, calcCurveTime_iec "IEC_61363_C" 80.0 2.0 rfl rfl _ _ _ hM1,
      calcCurveTime_iec "IEC_61363_C" 80.0 2.0 rfl rfl _ _ _ hM2,
      iec_strict_anti 80.0 2.0 tms (by norm_num) (by norm_num) htms _ _ hM1 hMM⟩
  · exact ⟨_, _, calcCurveTime_iec "IEC_61363_LT" 120.0 1.0 rfl rfl _ _ _ hM1,
      calcCurveTime_iec "IEC_61363_LT" 120.0 1.0 rfl rfl _ _ _ hM2,
      iec_strict_anti 120.0 1.0 tms (by norm_num) (by norm_num) htms _ _ hM1 hMM⟩

/-- C2 witness: the amended statement at the concrete input
curve IEC_VI, TMS 1, pickup 1, currents 2 and 3. -/
theorem curve_time_strictly_decreasing_witness :
    "IEC_VI" ∈ curveKeys ∧ "IEC_VI" ≠ "ANSI_DEF" ∧ (0 : ℝ) < 1 ∧ (1 : ℝ) < 2 ∧
    (2 : ℝ) < 3 ∧
    (∃ t1 t2 : ℝ, calculate_curve_time 2 1 "IEC_VI" 1 = .ok (.real t1) ∧
      calculate_curve_time 3 1 "IEC_VI" 1 = .ok (.real t2) ∧ t2 < t1) :=
  ⟨by rw [curveKeys_eq]; simp, by decide, by norm_num, by norm_num, by norm_num,
    curve_time_strictly_decreasing "IEC_VI" (by rw [curveKeys_eq]; simp)
      (by decide) 1 1 2 3 (by norm_num) (by norm_num) (by norm_num) (by norm_num)⟩

/-- C2 counterexample: `ANSI_DEF` is a registered identifier whose trip time
is the same at currents 2 and 4 with pickup 1 and TMS 1 (its exponent is 0),
so the trip time is not strictly decreasing above pickup. -/
theorem ansi_def_constant_trip_time :
    "ANSI_DEF" ∈ curveKeys ∧ (0 : ℝ) < 1 ∧ (1 : ℝ) < 2 ∧ (2 : ℝ) < 4 ∧
    calculate_curve_time 2 1 "ANSI_DEF" 1 = .ok (.real 0.2663) ∧
    calculate_curve_time 4 1 "ANSI_DEF" 1 = .ok (.real 0.2663) := by
  refine ⟨by rw [curveKeys_eq]; simp, by norm_num, by norm_num, by norm_num, ?_, ?_⟩
  · rw [calcCurveTime_ieee "ANSI_DEF" 0.2663 0.0 0.0 rfl rfl rfl 2 1 1 (by norm_num)]
    norm_num [Real.rpow_zero]
  · rw [calcCurveTime_ieee "ANSI_DEF" 0.2663 0.0 0.0 rfl rfl rfl 4 1 1 (by norm_num)]
    norm_num [Real.rpow_zero]

/-- C3: whenever the instantaneous element of the selected fault type is
enabled with a set pickup and the fault current reaches it, the returned
time is exactly that element's fixed delay, for every relay — in particular
regardless of the time element's settings, which are never consulted. -/
theorem instantaneous_precedence (r : Relay) (I p : ℝ) :
    (r.phase_inst_enabled = true → r.phase_inst_pickup = some p → p ≤ I →
      calculate_trip_time r I "phase" = .ok (some (.real r.phase_inst_delay))) ∧
    (r.ground_inst_enabled = true → r.ground_inst_pickup = some p → p ≤ I →
      calculate_trip_time r I "ground" = .ok (some (.real r.ground_inst_delay))) := by
  constructor
  · intro he hp hip
    simp [calculate_trip_time, he, hp, hip]
  · intro he hp hip
    simp [calculate_trip_time, he, hp, hip]

/-- C3 witness: `instRelay` has both phase elements armed, the time pickup
(150 A) far below the instantaneous pickup (900 A); at 1600 A the result is
the 50 ms instantaneous delay, not the curve time. -/
theorem instantaneous_precedence_witness :
    instRelay.phase_inst_enabled = true ∧ instRelay.phase_inst_pickup = some 900 ∧
    (900 : ℝ) ≤ 1600 ∧
    calculate_trip_time instRelay 1600 "phase" = .ok (some (.real (50 / 1000))) := by
  refine ⟨rfl, rfl, by norm_num, ?_⟩
  have h := (instantaneous_precedence instRelay 1600 900).1 rfl rfl (by norm_num)
  simpa [instRelay, mkRelay] using h

/-- C4: with an associated relay, `total_clearing_time` adds the breaker's
operating time to a numeric relay trip time and propagates "no trip"
unchanged. -/
theorem total_clearing_time_spec (cb : CircuitBreaker) (r : Relay) (I : ℝ)
    (ft : String) (hr : cb.relay = some r) :
    (∀ t : ℝ, calculate_trip_time r I ft = .ok (some (.real t)) →
      cb.total_clearing_time I ft = .ok (some (.real (t + cb.operating_time)))) ∧
    (calculate_trip_time r I ft = .ok none →
      cb.total_clearing_time I ft = .ok none) := by
  constructor
  · intro t h
    simp [CircuitBreaker.total_clearing_time, hr, h, TimeVal.addReal]
  · intro h
    simp [CircuitBreaker.total_clearing_time, hr, h]

/-- C4 witness: `instBreaker` (3 cycles = 0.05 s operating time) on top of
`instRelay` tripping instantaneously (0.05 s) at 1600 A; and the no-trip case
at 50 A. -/
theorem total_clearing_time_witness :
    instBreaker.relay = some instRelay ∧
    calculate_trip_time instRelay 1600 "phase" = .ok (some (.real (50 / 1000))) ∧
    instBreaker.total_clearing_time 1600 "phase" =
      .ok (some (.real (50 / 1000 + 3 / 60))) ∧
    calculate_trip_time instRelay 50 "phase" = .ok none ∧
    instBreaker.total_clearing_time 50 "phase" = .ok none := by
  have htrip : calculate_trip_time instRelay 1600 "phase" =
      .ok (some (.real (50 / 1000))) := by
    norm_num [calculate_trip_time, instRelay, mkRelay]
  have hno : calculate_trip_time instRelay 50 "phase" = .ok none := by
    norm_num [calculate_trip_time, instRelay, mkRelay, phaseTimeElement]
  refine ⟨rfl, htrip, ?_, hno, ?_⟩
  · have h := (total_clearing_time_spec instBreaker instRelay 1600 "phase" rfl).1
      (50 / 1000) htrip
    simpa [instBreaker, mkCircuitBreaker] using h
  · exact (total_clearing_time_spec instBreaker instRelay 50 "phase" rfl).2 hno

/-- C7: the CT transformation is the unclamped linear map `primary / ratio`
(also when the saturation flag is raised), and `secondary_current` and
`primary_current` are exact inverses of each other. -/
theorem ct_round_trip (prim sec alf x : ℝ) (hp : 0 < prim) (hs : 0 < sec)
    (_hx : 0 < x) :
    ((mkCT prim sec alf).secondary_current
        ((mkCT prim sec alf).primary_current x)).1 = x ∧
    (mkCT prim sec alf).primary_current
        ((mkCT prim sec alf).secondary_current x).1 = x ∧
    (∀ y : ℝ, ((mkCT prim sec alf).secondary_current y).1 =
        y / (mkCT prim sec alf).ratio) := by
  have hratio : (0 : ℝ) < prim / sec := div_pos hp hs
  refine ⟨?_, ?_, fun y => rfl⟩
  · show x * (prim / sec) / (prim / sec) = x
    exact mul_div_cancel_right₀ x (ne_of_gt hratio)
  · show x / (prim / sec) * (prim / sec) = x
    exact div_mul_cancel₀ x (ne_of_gt hratio)

/-- C7 witness: the 200/5 CT at x = 7. -/
theorem ct_round_trip_witness :
    (0 : ℝ) < 200 ∧ (0 : ℝ) < 5 ∧ (0 : ℝ) < 7 ∧
    ((mkCT 200 5 20).secondary_current ((mkCT 200 5 20).primary_current 7)).1 = 7 ∧
    (mkCT 200 5 20).primary_current ((mkCT 200 5 20).secondary_current 7).1 = 7 := by
  have h := ct_round_trip 200 5 20 7 (by norm_num) (by norm_num) (by norm_num)
  exact ⟨by norm_num, by norm_num, by norm_num, h.1, h.2.1⟩

/-- C8: the trip time depends only on the primary fault current and the
element settings: replacing the relay's CT by any other CT leaves
`calculate_trip_time` unchanged (the secondary value is computed and then
dropped). -/
theorem trip_time_independent_of_ct (r : Relay) (ct2 : CT) (I : ℝ) (ft : String) :
    calculate_trip_time { r with ct := ct2 } I ft = calculate_trip_time r I ft := by
  cases r
  rfl

/-- C9: an explicit millisecond operating time yields `ms / 1000` seconds
regardless of the cycle count; otherwise the cycle count is divided by the
fixed 60 Hz line frequency; and the only state transitions (`trip`, `close`)
leave `operating_time` unchanged. -/
theorem cb_operating_time_fixed (rel : Option Relay) (irk cyc ms : ℝ) :
    (mkCircuitBreaker rel irk cyc (some ms)).operating_time = ms / 1000 ∧
    (mkCircuitBreaker rel irk cyc none).operating_time = cyc / 60 ∧
    ∀ cb : CircuitBreaker,
      (CircuitBreaker.trip cb).operating_time = cb.operating_time ∧
      (CircuitBreaker.close cb).operating_time = cb.operating_time :=
  ⟨rfl, rfl, fun _ => ⟨rfl, rfl⟩⟩

/-- Source `selLe` is transitive (it orders trip-time keys ascending, `inf` last). -/
theorem selLe_trans : ∀ (a b c : String × TimeVal),
    selLe a b → selLe b c → selLe a c := by
  rintro ⟨na, xa⟩ ⟨nb, xb⟩ ⟨nc, xc⟩ h1 h2
  cases xa <;> cases xb <;> cases xc <;>
    simp_all [selLe, TimeVal.ltBool] <;> linarith

/-- Source `selLe` is total. -/
theorem selLe_total : ∀ (a b : String × TimeVal), selLe a b || selLe b a := by
  rintro ⟨na, xa⟩ ⟨nb, xb⟩
  cases xa <;> cases xb <;> simp [selLe, TimeVal.ltBool]
  exact le_total _ _

/-- Two entries with the same trip-time key compare `selLe` both ways. -/
theorem selLe_of_beq : ∀ (t : TimeVal) (a b : String × TimeVal),
    TimeVal.beq a.2 t = true → TimeVal.beq b.2 t = true → selLe a b := by
  rintro t ⟨na, xa⟩ ⟨nb, xb⟩ h1 h2
  cases xa <;> cases xb <;> cases t <;>
    simp_all [TimeVal.beq, selLe, TimeVal.ltBool]

/-- A filtered list is pairwise related when the relation holds between any
two elements satisfying the filter. -/
theorem pairwise_filter_of (p : (String × TimeVal) → Bool)
    (R : (String × TimeVal) → (String × TimeVal) → Prop)
    (h : ∀ a b, p a = true → p b = true → R a b) :
    ∀ l : List (String × TimeVal), (l.filter p).Pairwise R := by
  intro l
  induction l with
  | nil => simp
  | cons a l ih =>
    by_cases ha : p a = true
    · rw [List.filter_cons_of_pos ha]
      exact List.Pairwise.cons (fun b hb => h a b ha (List.of_mem_filter hb)) ih
    · rw [List.filter_cons_of_neg (by simpa using ha)]
      exact ih

/-- Stability of the sort used by `check_selectivity`: the subsequence of
entries with any fixed trip time is unchanged, i.e. ties keep the original
relay order. -/
theorem mergeSort_filter_key (l : List (String × TimeVal)) (t : TimeVal) :
    (l.mergeSort selLe).filter (fun q => TimeVal.beq q.2 t) =
      l.filter (fun q => TimeVal.beq q.2 t) := by
  have hpw : (l.filter (fun q => TimeVal.beq q.2 t)).Pairwise
      (fun a b => selLe a b = true) :=
    pairwise_filter_of _ _ (fun a b ha hb => selLe_of_beq t a b ha hb) l
  have hsub : List.Sublist (l.filter (fun q => TimeVal.beq q.2 t))
      (l.mergeSort selLe) :=
    List.sublist_mergeSort selLe_trans selLe_total hpw (List.filter_sublist l)
  have hsub2 : List.Sublist (l.filter (fun q => TimeVal.beq q.2 t))
      ((l.mergeSort selLe).filter (fun q => TimeVal.beq q.2 t)) := by
    have h2 := hsub.filter (fun q => TimeVal.beq q.2 t)
    simpa [List.filter_filter] using h2
  have hlen : ((l.mergeSort selLe).filter (fun q => TimeVal.beq q.2 t)).length =
      (l.filter (fun q => TimeVal.beq q.2 t)).length :=
    ((List.mergeSort_perm l selLe).filter _).length_eq
  exact (hsub2.eq_of_length hlen.symm).symm

/-- The `(name, trip_time)` projection of the later result rows is the input
list itself. -/
theorem selRest_map_entry (m : ℝ) :
    ∀ (l : List (String × TimeVal)) (prev : TimeVal),
      (selRest m prev l).map resultEntry = l
  | [], _ => rfl
  | (nm, t) :: rest, prev => by
    simp [selRest, resultEntry, selRest_map_entry m rest t]

/-- The `(name, trip_time)` projection of the result rows is the sorted input
list itself. -/
theorem buildSelResults_map_entry (m : ℝ) (l : List (String × TimeVal)) :
    (buildSelResults m l).map resultEntry = l := by
  cases l with
  | nil => rfl
  | cons a rest =>
    obtain ⟨nm, t⟩ := a
    simp [buildSelResults, resultEntry, selRest_map_entry m rest t]

/-- Adjacent-row property of the later result rows: each margin is the row's
trip time minus the previous trip time, and selectivity is that margin
compared against `min_margin`. -/
theorem selRest_chain (m : ℝ) :
    ∀ (l : List (String × TimeVal)) (prev : TimeVal),
      (selRest m prev l).Chain'
        (fun a b => b.margin = some (b.trip_time.sub a.trip_time) ∧
          b.selective = (b.trip_time.sub a.trip_time).geBool m)
  | [], _ => by simp [selRest]
  | (nm, t) :: rest, prev => by
    simp only [selRest]
    rw [List.chain'_cons']
    refine ⟨?_, selRest_chain m rest t⟩
    intro y hy
    cases rest with
    | nil => simp [selRest] at hy
    | cons b r2 =>
      obtain ⟨nm2, t2⟩ := b
      simp only [selRest, List.head?_cons, Option.mem_def, Option.some.injEq] at hy
      rw [← hy]
      exact ⟨rfl, rfl⟩

/-- Adjacent-row property of the whole result list. -/
theorem buildSelResults_chain (m : ℝ) (l : List (String × TimeVal)) :
    (buildSelResults m l).Chain'
      (fun a b => b.margin = some (b.trip_time.sub a.trip_time) ∧
        b.selective = (b.trip_time.sub a.trip_time).geBool m) := by
  cases l with
  | nil => simp [buildSelResults]
  | cons a rest =>
    obtain ⟨nm, t⟩ := a
    simp only [buildSelResults]
    rw [List.chain'_cons']
    refine ⟨?_, selRest_chain m rest t⟩
    intro y hy
    cases rest with
    | nil => simp [selRest] at hy
    | cons b r2 =>
      obtain ⟨nm2, t2⟩ := b
      simp only [selRest, List.head?_cons, Option.mem_def, Option.some.injEq] at hy
      rw [← hy]
      exact ⟨rfl, rfl⟩

/-- The first (fastest) result row has no margin and is marked selective. -/
theorem buildSelResults_head (m : ℝ) (l : List (String × TimeVal))
    (x : SelectivityResult) (h : (buildSelResults m l).head? = some x) :
    x.margin = none ∧ x.selective = true := by
  cases l with
  | nil => simp [buildSelResults] at h
  | cons a rest =>
    obtain ⟨nm, t⟩ := a
    simp only [buildSelResults, List.head?_cons, Option.some.injEq] at h
    rw [← h]
    exact ⟨rfl, rfl⟩

/-- A successful `trip_times` collection holds exactly the tripping relays'
entries, in the original relay order. -/
theorem collectTripTimes_ok_eq (I : ℝ) (ft : String) :
    ∀ (rs : List Relay) (ts : List (String × TimeVal)),
      collectTripTimes rs I ft = .ok ts → ts = rs.filterMap (tripEntry I ft)
  | [], ts, h => by
    simp only [collectTripTimes, Except.ok.injEq] at h
    simp [← h]
  | r :: rs, ts, h => by
    simp only [collectTripTimes] at h
    cases hr : calculate_trip_time r I ft with
    | error e => rw [hr] at h; simp at h
    | ok v =>
      rw [hr] at h
      cases v with
      | none =>
        have ih := collectTripTimes_ok_eq I ft rs ts h
        have htr : tripEntry I ft r = none := by simp [tripEntry, hr]
        simp [List.filterMap_cons, htr, ih]
      | some t =>
        cases hrec : collectTripTimes rs I ft with
        | error e => rw [hrec] at h; simp [Except.map] at h
        | ok l =>
          rw [hrec] at h
          simp only [Except.map, Except.ok.injEq] at h
          have ih := collectTripTimes_ok_eq I ft rs l hrec
          have htr : tripEntry I ft r = some (r.name, t) := by simp [tripEntry, hr]
          rw [← h]
          simp [List.filterMap_cons, htr, ih]

/-- C5: a successful `check_selectivity` run keeps exactly the tripping
relays, returns one row per tripping relay, the rows are a permutation of the
collected entries sorted ascending by trip time with ties kept in original
relay order (stability clause), the fastest row is the primary with no margin
and `selective = True`, and every later row's margin is its trip time minus
the previous row's with `selective` iff `margin >= min_margin`. -/
theorem check_selectivity_spec (rs : List Relay) (I m : ℝ) (ft : String)
    (ts : List (String × TimeVal)) (res : List SelectivityResult)
    (hts : collectTripTimes rs I ft = .ok ts)
    (hres : check_selectivity rs I ft m = .ok res) :
    ts = rs.filterMap (tripEntry I ft) ∧
    res.length = ts.length ∧
    (res.map resultEntry).Perm ts ∧
    res.Pairwise (fun a b => TimeVal.ltBool b.trip_time a.trip_time = false) ∧
    (∀ t : TimeVal, (res.map resultEntry).filter (fun q => TimeVal.beq q.2 t) =
      ts.filter (fun q => TimeVal.beq q.2 t)) ∧
    (∀ x, res.head? = some x → x.margin = none ∧ x.selective = true) ∧
    res.Chain' (fun a b => b.margin = some (b.trip_time.sub a.trip_time) ∧
      b.selective = (b.trip_time.sub a.trip_time).geBool m) := by
  have hresEq : res = buildSelResults m (ts.mergeSort selLe) := by
    simp only [check_selectivity] at hres
    rw [hts] at hres
    simp only [Except.map, Except.ok.injEq] at hres
    exact hres.symm
  have hmap : res.map resultEntry = ts.mergeSort selLe := by
    rw [hresEq]
    exact buildSelResults_map_entry m _
  refine ⟨collectTripTimes_ok_eq I ft rs ts hts, ?_, ?_, ?_, ?_, ?_, ?_⟩
  · have hlen := congrArg List.length hmap
    simpa using hlen
  · rw [hmap]
    exact List.mergeSort_perm ts selLe
  · have hs := List.sorted_mergeSort selLe_trans selLe_total ts
    rw [← hmap] at hs
    have hp := List.pairwise_map.mp hs
    exact hp.imp (fun h => by simpa [selLe, Bool.not_eq_true'] using h)
  · intro t
    rw [hmap]
    exact mergeSort_filter_key ts t
  · intro x hx
    rw [hresEq] at hx
    exact buildSelResults_head m _ x hx
  · rw [hresEq]
    exact buildSelResults_chain m _

/-- Relay "A" trips in 0.5 s at 1000 A (its 500 ms instantaneous element). -/
theorem selRelayA_eval : calculate_trip_time selRelayA 1000 "phase" =
    .ok (some (.real (500 / 1000))) := by
  norm_num [calculate_trip_time, selRelayA, mkRelay]

/-- Relay "B" trips in 0.9 s at 1000 A (its 900 ms instantaneous element). -/
theorem selRelayB_eval : calculate_trip_time selRelayB 1000 "phase" =
    .ok (some (.real (900 / 1000))) := by
  norm_num [calculate_trip_time, selRelayB, mkRelay]

/-- The collected trip times of the two-relay fleet at 1000 A. -/
theorem selFleet_collect :
    collectTripTimes [selRelayA, selRelayB] 1000 "phase" =
      .ok [("A", .real (500 / 1000)), ("B", .real (900 / 1000))] := by
  simp only [collectTripTimes, selRelayA_eval, selRelayB_eval, Except.map]
  rfl

/-- The full selectivity result of the two-relay fleet at 1000 A with the
default 0.3 s margin: "A" is the primary, "B" has margin 0.4 s and is
selective. -/
theorem selFleet_result :
    check_selectivity [selRelayA, selRelayB] 1000 "phase" (3 / 10) =
      .ok [⟨"A", .real (500 / 1000), none, true⟩,
        ⟨"B", .real (900 / 1000), some (.real (2 / 5)), true⟩] := by
  simp only [check_selectivity, selFleet_collect, Except.map]
  rw [List.mergeSort_of_sorted]
  · simp only [buildSelResults, selRest, TimeVal.sub, MarginVal.geBool]
    norm_num
  · refine List.pairwise_cons.mpr ⟨?_, List.pairwise_singleton _ _⟩
    intro b hb
    simp only [List.mem_singleton] at hb
    subst hb
    norm_num [selLe, TimeVal.ltBool]

/-- C5 witness: the two-relay fleet at 1000 A, default margin 0.3 s, and the
permutation clause of the specification theorem applied to it. -/
theorem check_selectivity_spec_witness :
    collectTripTimes [selRelayA, selRelayB] 1000 "phase" =
      .ok [("A", .real (500 / 1000)), ("B", .real (900 / 1000))] ∧
    check_selectivity [selRelayA, selRelayB] 1000 "phase" (3 / 10) =
      .ok [⟨"A", .real (500 / 1000), none, true⟩,
        ⟨"B", .real (900 / 1000), some (.real (2 / 5)), true⟩] ∧
    ([(⟨"A", .real (500 / 1000), none, true⟩ : SelectivityResult),
        ⟨"B", .real (900 / 1000), some (.real (2 / 5)), true⟩].map
      resultEntry).Perm [("A", .real (500 / 1000)), ("B", .real (900 / 1000))] :=
  ⟨selFleet_collect, selFleet_result,
    (check_selectivity_spec [selRelayA, selRelayB] 1000 (3 / 10) "phase" _ _
      selFleet_collect selFleet_result).2.2.1⟩

/-- C10: any fault type other than "phase" and "ground" falls through both
branches of `calculate_trip_time` to `return None`, with no error, whatever
the relay's settings and the current. -/
theorem trip_time_unknown_fault_type (r : Relay) (I : ℝ) (ft : String)
    (h1 : ft ≠ "phase") (h2 : ft ≠ "ground") :
    calculate_trip_time r I ft = .ok none := by
  simp [calculate_trip_time, h1, h2]

/-- An identifier outside the registry has no entry in `ALL_CURVES`. -/
theorem lookup_none_of_not_mem (c : String) (hc : c ∉ curveKeys) :
    ALL_CURVES.lookup c = none := by
  rw [List.lookup_eq_none_iff]
  intro q hq
  simp only [bne_iff_ne, ne_eq]
  intro h
  exact hc (h ▸ List.mem_map_of_mem Prod.fst hq)

/-- C6: looking up an unregistered curve identifier fails with the hard error
whose message carries every registered identifier (in sorted order);
`Relay.__init__` stores such an identifier without validation, and the error
surfaces from `calculate_trip_time` exactly when the current is strictly
above the armed time element's pickup (below or at pickup no lookup happens
and no error is raised). -/
theorem unknown_curve_error (c : String) (hc : c ∉ curveKeys) (r : Relay)
    (pu I tms dms : ℝ) (hpupos : 0 < pu) (hcurve : r.phase_curve = c)
    (hen : r.phase_enabled = true) (hpu : r.phase_pickup = some pu)
    (hinst : r.phase_inst_enabled = false) :
    get_curve_params c = .error (unknownCurveMessage c) ∧
    (∀ k ∈ curveKeys, k ∈ sortedCurveKeys) ∧
    (mkRelay r.name r.ct r.phase_pickup c tms r.phase_enabled r.phase_inst_pickup
        dms r.phase_inst_enabled r.ground_pickup r.ground_curve r.ground_tms
        r.ground_enabled r.ground_inst_pickup dms
        r.ground_inst_enabled).phase_curve = c ∧
    (pu < I → calculate_trip_time r I "phase" = .error (unknownCurveMessage c)) ∧
    (I ≤ pu → ∃ v, calculate_trip_time r I "phase" = .ok v) := by
  have hlook : ALL_CURVES.lookup c = none := lookup_none_of_not_mem c hc
  refine ⟨?_, ?_, rfl, ?_, ?_⟩
  · rw [get_curve_params, hlook]
  · intro k hk
    rw [sortedCurveKeys]
    simpa using hk
  · intro hlt
    have hM : 1 < I / pu := (one_lt_div hpupos).mpr hlt
    have hcct : calculate_curve_time I pu c r.phase_tms =
        .error (unknownCurveMessage c) := by
      simp only [calculate_curve_time]
      rw [if_neg (not_le.mpr hM), get_curve_params, hlook]
    simp [calculate_trip_time, hinst, phaseTimeElement, hen, hpu,
      le_of_lt hlt, hcurve, hcct, Except.map]
  · intro hle
    rcases lt_or_eq_of_le hle with hlt | heq
    · exact ⟨none, by simp [calculate_trip_time, hinst, phaseTimeElement, hen, hpu,
        not_le.mpr hlt]⟩
    · refine ⟨some TimeVal.inf, ?_⟩
      have hgei : pu ≤ I := le_of_eq heq.symm
      have hcct : calculate_curve_time I pu r.phase_curve r.phase_tms =
          .ok TimeVal.inf := by
        simp only [calculate_curve_time]
        rw [if_pos]
        rw [heq, div_self (ne_of_gt hpupos)]
      simp [calculate_trip_time, hinst, phaseTimeElement, hen, hpu, hgei, hcct,
        Except.map]

/-- C6 witness: the identifier "BOGUS" on `bogusCurveRelay` (armed phase time
element, pickup 100 A): lookup fails with the enumerating error, the relay is
constructed anyway, the evaluation at 200 A raises the error. -/
theorem unknown_curve_error_witness :
    "BOGUS" ∉ curveKeys ∧ (0 : ℝ) < 100 ∧
    bogusCurveRelay.phase_curve = "BOGUS" ∧
    get_curve_params "BOGUS" = .error (unknownCurveMessage "BOGUS") ∧
    ((100 : ℝ) < 200 →
      calculate_trip_time bogusCurveRelay 200 "phase" =
        .error (unknownCurveMessage "BOGUS")) := by
  have h := unknown_curve_error "BOGUS" (by decide) bogusCurveRelay 100 200 0.4 50
    (by norm_num) rfl rfl rfl rfl
  exact ⟨by decide, by norm_num, rfl, h.1, fun hlt => h.2.2.2.1 hlt⟩

/-- C10 witness: the fault type "bogus" on a relay with an armed phase
element and a huge current. -/
theorem trip_time_unknown_fault_type_witness :
    ("bogus" : String) ≠ "phase" ∧ ("bogus" : String) ≠ "ground" ∧
    calculate_trip_time boundaryRelay 100000 "bogus" = .ok none :=
  ⟨by decide, by decide,
    trip_time_unknown_fault_type boundaryRelay 100000 "bogus" (by decide) (by decide)⟩

end RelayCoordination
